import Mathlib

/-!
Shallow embedding of `src/gpc.py` (gender classification from pitch).

Modelling conventions:
* Machine floats become exact rationals `ℚ`.
* The audio collaborator (librosa `load` + `pyin`) is modelled as an input
  `AudioOutcome`: either a raised fault (`fail`, covering decode errors and
  estimator exceptions caught by the `try/except` in `classify_gender`), or
  the per-frame `f0` array produced by `pyin`, where `none` stands for a NaN
  entry (an unvoiced frame) and `some q` for a voiced-frame frequency.
* Python dict `get` with default becomes lookup over the insertion sequence
  with last-write-wins, returning the given default when absent.
* The record dictionary built by `process_file` becomes the `Record`
  structure; the two-decimal string formatting of `mean_freq` is kept as the
  underlying optional rational (no claim depends on the digits printed).
-/

/-- The four predicted-label strings `classify_gender` can return. -/
inductive Label where
  | male
  | female
  | unclassified
  | error
deriving DecidableEq, Repr

/-- The Python string value of a predicted label. -/
def Label.str : Label → String
  | .male => "male"
  | .female => "female"
  | .unclassified => "unclassified"
  | .error => "error"

/-- `pred_label in ['male', 'female']` from `process_file`. -/
def Label.isGendered : Label → Bool
  | .male => true
  | .female => true
  | _ => false

/-- Outcome of `librosa.load` + `librosa.pyin` on one audio path:
either an exception (caught by `classify_gender`'s `except` branch), or the
frame-wise `f0` array, `none` marking a NaN (unvoiced) frame. -/
inductive AudioOutcome where
  | fail
  | frames (f0 : List (Option ℚ))
deriving DecidableEq, Repr

/-- The threshold chain of `classify_gender` on the computed `mean_freq`
(source lines 44-50):
`if 85 <= mean_freq <= 150: 'male' elif 150 < mean_freq <= 255: 'female'
else: 'unclassified'`. -/
def classifyFreq (mean_freq : ℚ) : Label :=
  if 85 ≤ mean_freq ∧ mean_freq ≤ 150 then .male
  else if 150 < mean_freq ∧ mean_freq ≤ 255 then .female
  else .unclassified

/-- `classify_gender(audio_path)`: drop NaN frames (`f0 = f0[~np.isnan(f0)]`),
return `('unclassified', None)` when no voiced frame remains, otherwise
classify the arithmetic mean `np.mean(f0)`; any exception while loading or
tracking yields `('error', None)`. -/
def classify_gender : AudioOutcome → Label × Option ℚ
  | .fail => (.error, none)
  | .frames f0 =>
    let voiced := f0.filterMap id
    if voiced.length = 0 then (.unclassified, none)
    else
      let mean_freq := voiced.sum / (voiced.length : ℚ)
      (classifyFreq mean_freq, some mean_freq)

/-- One row of `data/meta.csv` as `csv.DictReader` hands it to
`load_ground_truth`: the `filename` column and the optional `gender` column
(`row.get('gender', '')`). -/
structure MetaRow where
  filename : String
  gender : Option String
deriving DecidableEq, Repr

/-- `load_ground_truth(meta_csv)`: for each row in file order, record
`row['filename'].strip() -> row.get('gender', '').strip().lower()`.
The dict is kept as the insertion sequence; duplicate keys resolve
last-write-wins at lookup time, matching Python dict assignment. -/
def load_ground_truth (rows : List MetaRow) : List (String × String) :=
  rows.map (fun row => (row.filename.trim, (row.gender.getD "").trim.toLower))

/-- Python `truth.get(fname, 'unknown')`: the value of the last insertion
with key `fname`, or the sentinel `"unknown"` when no such key exists. -/
def gtLookup (truth : List (String × String)) (fname : String) : String :=
  match truth.reverse.find? (fun p => p.1 == fname) with
  | some p => p.2
  | none => "unknown"

/-- The per-file result dictionary built by `process_file`. -/
structure Record where
  file : String
  predicted : Label
  mean_freq : Option ℚ
  ground_truth : String
  correct : Bool
  unclassified : Bool
  incorrect : Bool
deriving DecidableEq, Repr

/-- `process_file((fname, ground_truth))` with the audio collaborator
`audio` supplying what `classify_gender` sees for each file name. -/
def process_file (audio : String → AudioOutcome)
    (ground_truth : List (String × String)) (fname : String) : Record :=
  let r := classify_gender (audio fname)
  let pred_label := r.1
  let mean_freq := r.2
  let true_label := gtLookup ground_truth fname
  { file := fname
    predicted := pred_label
    mean_freq := mean_freq
    ground_truth := true_label
    correct := (pred_label.str == true_label) && pred_label.isGendered
    unclassified := !pred_label.isGendered
    incorrect := pred_label.isGendered && (pred_label.str != true_label) }

/-- The four running counters of `main` (`correct`, `incorrect`,
`unclassified`, `total`), all initialised to `0`. -/
structure Counters where
  correct : Nat
  incorrect : Nat
  unclassified : Nat
  total : Nat
deriving DecidableEq, Repr

/-- One iteration of `main`'s collection loop on a finished row:
`if row['correct']: correct += 1 elif row['unclassified']: unclassified += 1
elif row['incorrect']: incorrect += 1` then `total += 1`.
The same chain appears verbatim in the threaded and sequential branches. -/
def stepCounters (c : Counters) (row : Record) : Counters :=
  let c' :=
    if row.correct then { c with correct := c.correct + 1 }
    else if row.unclassified then { c with unclassified := c.unclassified + 1 }
    else if row.incorrect then { c with incorrect := c.incorrect + 1 }
    else c
  { c' with total := c'.total + 1 }

/-- The batch run of `main` over a given processing order: each file in
`order` yields `process_file`'s record, records are appended in that order,
and the counters are updated per completed row. With `--threads 1` the order
is the sorted submission order; with more threads it is the completion order,
a permutation of the submission order. -/
def runBatch (audio : String → AudioOutcome)
    (ground_truth : List (String × String)) (order : List String) :
    List Record × Counters :=
  let records := order.map (process_file audio ground_truth)
  (records, records.foldl stepCounters ⟨0, 0, 0, 0⟩)

/-- The spec's RunSummary as a single pure fold over the finished record
sequence: each aggregate count is the number of records whose corresponding
flag is true, and `total` is the number of records.
Modelled from the spec (§3 RunSummary, §4.4 Collection): the spec-side
aggregate against which `main`'s incremental counters are compared. -/
def countFold (records : List Record) : Counters :=
  { correct := records.countP (fun r => r.correct)
    incorrect := records.countP (fun r => r.incorrect)
    unclassified := records.countP (fun r => r.unclassified)
    total := records.length }

/-- Python string comparison on two character sequences: lexicographic by
code point, shorter sequence first on ties. -/
def charListLe : List Char → List Char → Bool
  | [], _ => true
  | _ :: _, [] => false
  | c :: cs, d :: ds =>
    if c.toNat < d.toNat then true
    else if d.toNat < c.toNat then false
    else charListLe cs ds

/-- `a <= b` on Python strings (code-point lexicographic). -/
def strLe (a b : String) : Bool := charListLe a.data b.data

/-- Insertion step of an ascending stable sort under `strLe`. -/
def insertStr (x : String) : List String → List String
  | [] => [x]
  | y :: ys => if strLe x y then x :: y :: ys else y :: insertStr x ys

/-- `list.sort()` on strings: ascending stable sort under `strLe`
(insertion sort, extensionally the sort Python performs). -/
def sortStrings : List String → List String
  | [] => []
  | x :: xs => insertStr x (sortStrings xs)

/-- `f.endswith('.mp3')`: the last four characters are `.mp3`. -/
def hasMp3Suffix (f : String) : Bool := ".mp3".data.isSuffixOf f.data

/-- `main`'s candidate selection: keep names ending in `.mp3`, sort
ascending, and unless `--all` was given keep only the first 10
(`audio_files[:10]`). -/
def selectFiles (allFlag : Bool) (listing : List String) : List String :=
  let audio_files := sortStrings (listing.filter hasMp3Suffix)
  if allFlag then audio_files else audio_files.take 10

/-- The statistics block of `main`: the three rates are printed only under
the guard `if total > 0`; otherwise no division happens at all. -/
def rates (c : Counters) : Option (ℚ × ℚ × ℚ) :=
  if 0 < c.total then
    some ((c.correct : ℚ) / (c.total : ℚ),
          (c.incorrect : ℚ) / (c.total : ℚ),
          (c.unclassified : ℚ) / (c.total : ℚ))
  else none

/-- The header row `['file', 'predicted', 'mean_freq', 'ground_truth',
'correct']` written by `csv.DictWriter.writeheader`. -/
def headerRow : List String :=
  ["file", "predicted", "mean_freq", "ground_truth", "correct"]

/-- Serialisation of `mean_freq`: empty string when absent; when present the
source prints the value to two decimals, kept here as the decimal string of
the rounded hundredths. -/
def freqField : Option ℚ → String
  | none => ""
  | some q => toString (round (q * 100)) ++ "e-2"

/-- One CSV data row: the `fieldnames` projection of a record. -/
def rowOf (r : Record) : List String :=
  [r.file, r.predicted.str, freqField r.mean_freq, r.ground_truth,
   toString r.correct]

/-- The results table as written to `results.csv`: header first, then one
row per collected record in collection order. -/
def writeResults (records : List Record) : List (List String) :=
  headerRow :: records.map rowOf

/-! ### Helper lemmas -/

/-- The three flags computed by `process_file` from a predicted label and a
ground-truth string always sum (as 0/1 values) to exactly one. -/
theorem flags_sum_one (p : Label) (t : String) :
    ((p.str == t) && p.isGendered).toNat +
      (p.isGendered && (p.str != t)).toNat +
      (!p.isGendered).toNat = 1 := by
  cases p <;> simp [Label.str, Label.isGendered, bne] <;>
    cases h : (_ == t) <;> simp

/-- Every record built by `process_file` has flags summing to one. -/
theorem process_file_flags_sum (audio : String → AudioOutcome)
    (gt : List (String × String)) (fname : String) :
    (process_file audio gt fname).correct.toNat +
      (process_file audio gt fname).incorrect.toNat +
      (process_file audio gt fname).unclassified.toNat = 1 := by
  simp only [process_file]
  exact flags_sum_one _ _

/-- Characterisation of `main`'s incremental counter loop: over any record
list whose flags are mutually exclusive and exhaustive (sum one), the fold of
`stepCounters` adds, to each starting counter, the number of records carrying
the corresponding flag, and adds the list length to `total`. -/
theorem foldl_stepCounters_eq (l : List Record) (init : Counters)
    (h : ∀ r ∈ l, r.correct.toNat + r.incorrect.toNat + r.unclassified.toNat = 1) :
    l.foldl stepCounters init =
      ⟨init.correct + l.countP (fun r => r.correct),
       init.incorrect + l.countP (fun r => r.incorrect),
       init.unclassified + l.countP (fun r => r.unclassified),
       init.total + l.length⟩ := by
  induction l generalizing init with
  | nil => simp [List.countP_nil]
  | cons r l ih =>
    have hr := h r (by simp)
    have hl : ∀ x ∈ l, x.correct.toNat + x.incorrect.toNat + x.unclassified.toNat = 1 :=
      fun x hx => h x (List.mem_cons_of_mem _ hx)
    rw [List.foldl_cons, ih _ hl]
    cases hc : r.correct <;> cases hi : r.incorrect <;> cases hu : r.unclassified <;>
      simp [hc, hi, hu] at hr ⊢ <;>
      simp [stepCounters, hc, hi, hu, List.countP_cons, List.length_cons] <;>
      omega

/-- Over any record list with mutually exclusive, exhaustive flags, the list
length is the sum of the three flag counts. -/
theorem length_eq_flag_counts (l : List Record)
    (h : ∀ r ∈ l, r.correct.toNat + r.incorrect.toNat + r.unclassified.toNat = 1) :
    l.length = l.countP (fun r => r.correct) + l.countP (fun r => r.incorrect) +
      l.countP (fun r => r.unclassified) := by
  induction l with
  | nil => simp [List.countP_nil]
  | cons r l ih =>
    have hr := h r (by simp)
    have hl : ∀ x ∈ l, x.correct.toNat + x.incorrect.toNat + x.unclassified.toNat = 1 :=
      fun x hx => h x (List.mem_cons_of_mem _ hx)
    simp only [List.length_cons, List.countP_cons, ih hl]
    cases hc : r.correct <;> cases hi : r.incorrect <;> cases hu : r.unclassified <;>
      simp [hc, hi, hu] at hr ⊢ <;> omega

/-- All records produced by a batch run have flags summing to one. -/
theorem runBatch_records_flags (audio : String → AudioOutcome)
    (gt : List (String × String)) (order : List String) :
    ∀ r ∈ (runBatch audio gt order).1,
      r.correct.toNat + r.incorrect.toNat + r.unclassified.toNat = 1 := by
  intro r hr
  simp only [runBatch, List.mem_map] at hr
  obtain ⟨fname, _, rfl⟩ := hr
  exact process_file_flags_sum audio gt fname

/-! ### Claim theorems -/

/-- C1: for every present pitch estimate `f`, the classifier threshold chain
returns `male` iff `85 ≤ f ≤ 150`, `female` iff `150 < f ≤ 255`, and
`unclassified` otherwise (`f < 85` or `f > 255`); in particular
`classifyFreq 85 = male`, `classifyFreq 150 = male`,
`classifyFreq 255 = female`, and the spec's boundary-law sample points hold. -/
theorem C1_classify_thresholds :
    (∀ f : ℚ, classifyFreq f = Label.male ↔ 85 ≤ f ∧ f ≤ 150) ∧
    (∀ f : ℚ, classifyFreq f = Label.female ↔ 150 < f ∧ f ≤ 255) ∧
    (∀ f : ℚ, classifyFreq f = Label.unclassified ↔ f < 85 ∨ 255 < f) ∧
    classifyFreq 85 = Label.male ∧ classifyFreq 150 = Label.male ∧
    classifyFreq 255 = Label.female ∧
    classifyFreq (150.0001 : ℚ) = Label.female ∧
    classifyFreq (255.0001 : ℚ) = Label.unclassified ∧
    classifyFreq (84.9999 : ℚ) = Label.unclassified := by
  have hmale : ∀ f : ℚ, classifyFreq f = Label.male ↔ 85 ≤ f ∧ f ≤ 150 := by
    intro f
    unfold classifyFreq
    split_ifs with h1 h2
    · simp [h1]
    · simp [h1]
    · simp [h1]
  have hfemale : ∀ f : ℚ, classifyFreq f = Label.female ↔ 150 < f ∧ f ≤ 255 := by
    intro f
    unfold classifyFreq
    split_ifs with h1 h2
    · constructor
      · intro h
        exact absurd h (by decide)
      · rintro ⟨h3, h4⟩
        exact absurd h3 (not_lt.mpr h1.2)
    · simp [h2]
    · simp [h2]
  have huncl : ∀ f : ℚ, classifyFreq f = Label.unclassified ↔ f < 85 ∨ 255 < f := by
    intro f
    unfold classifyFreq
    split_ifs with h1 h2
    · constructor
      · intro h
        exact absurd h (by decide)
      · rintro (h3 | h3)
        · exfalso
          linarith [h1.1]
        · exfalso
          linarith [h1.2]
    · constructor
      · intro h
        exact absurd h (by decide)
      · rintro (h3 | h3)
        · exfalso
          linarith [h2.1]
        · exfalso
          linarith [h2.2]
    · push_neg at h1 h2
      constructor
      · intro _
        rcases lt_or_le f 85 with h | h
        · exact Or.inl h
        · exact Or.inr (h2 (h1 h))
      · intro _
        rfl
  refine ⟨hmale, hfemale, huncl, ?_, ?_, ?_, ?_, ?_, ?_⟩ <;> norm_num [classifyFreq]

/-- C2: for every record produced by processing a file — whatever the audio
outcome (so any predicted label among male, female, unclassified, error) and
whatever the ground-truth table holds, including the `unknown` sentinel —
exactly one of the three derived flags {correct, incorrect, unclassified}
is true. -/
theorem C2_flags_exactly_one (audio : String → AudioOutcome)
    (gt : List (String × String)) (fname : String) :
    (process_file audio gt fname).correct.toNat +
      (process_file audio gt fname).incorrect.toNat +
      (process_file audio gt fname).unclassified.toNat = 1 :=
  process_file_flags_sum audio gt fname

/-- Flags of every record in a mapped batch sum to one. -/
theorem map_process_file_flags (audio : String → AudioOutcome)
    (gt : List (String × String)) (order : List String) :
    ∀ r ∈ order.map (process_file audio gt),
      r.correct.toNat + r.incorrect.toNat + r.unclassified.toNat = 1 := by
  intro r hr
  obtain ⟨fname, _, rfl⟩ := List.mem_map.mp hr
  exact process_file_flags_sum audio gt fname

/-- Closed form of the counters computed by a batch run: each counter is the
number of produced records carrying the corresponding flag, and `total` is
the number of files processed. -/
theorem runBatch_counters (audio : String → AudioOutcome)
    (gt : List (String × String)) (order : List String) :
    (runBatch audio gt order).2 =
      ⟨(order.map (process_file audio gt)).countP (fun r => r.correct),
       (order.map (process_file audio gt)).countP (fun r => r.incorrect),
       (order.map (process_file audio gt)).countP (fun r => r.unclassified),
       (order.map (process_file audio gt)).length⟩ := by
  have h := foldl_stepCounters_eq (order.map (process_file audio gt)) ⟨0, 0, 0, 0⟩
    (map_process_file_flags audio gt order)
  simpa [runBatch] using h

/-- C3: the batch run is a pure function of its inputs, so two sequential
runs on the same candidate set coincide; and a run whose collection order is
any permutation of the submission order (the completion order of a threaded
run) yields the same multiset of records and identical counters. -/
theorem C3_concurrency_determinism (audio : String → AudioOutcome)
    (gt : List (String × String)) (files completion : List String)
    (h : completion.Perm files) :
    runBatch audio gt files = runBatch audio gt files ∧
    ((runBatch audio gt completion).1).Perm ((runBatch audio gt files).1) ∧
    (runBatch audio gt completion).2 = (runBatch audio gt files).2 := by
  have hp : (completion.map (process_file audio gt)).Perm
      (files.map (process_file audio gt)) := h.map _
  refine ⟨rfl, ?_, ?_⟩
  · simpa [runBatch] using hp
  · rw [runBatch_counters, runBatch_counters]
    simp [hp.countP_eq, hp.length_eq]

/-- C3 witness: a two-file batch collected in swapped completion order gives
a permuted record list and the same counters as the submission order. -/
theorem C3_concurrency_determinism_witness :
    ((runBatch (fun _ => AudioOutcome.fail) [] ["b.mp3", "a.mp3"]).1).Perm
      ((runBatch (fun _ => AudioOutcome.fail) [] ["a.mp3", "b.mp3"]).1) ∧
    (runBatch (fun _ => AudioOutcome.fail) [] ["b.mp3", "a.mp3"]).2 =
      (runBatch (fun _ => AudioOutcome.fail) [] ["a.mp3", "b.mp3"]).2 :=
  (C3_concurrency_determinism (fun _ => AudioOutcome.fail) [] ["a.mp3", "b.mp3"]
    ["b.mp3", "a.mp3"] (List.Perm.swap "a.mp3" "b.mp3" [])).2

/-- C4: for every completed batch run, the aggregate counts satisfy
`total = correct + incorrect + unclassified`, each count being the number of
records with the corresponding flag true. -/
theorem C4_total_is_sum (audio : String → AudioOutcome)
    (gt : List (String × String)) (order : List String) :
    ((runBatch audio gt order).2).total =
      ((runBatch audio gt order).2).correct +
        ((runBatch audio gt order).2).incorrect +
        ((runBatch audio gt order).2).unclassified := by
  rw [runBatch_counters]
  exact length_eq_flag_counts _ (map_process_file_flags audio gt order)

/-- C8: the incrementally maintained counters of the collection loop equal
the single pure fold `countFold` over the finished record sequence — counting
records by their flags — for every batch run. -/
theorem C8_counters_eq_pure_fold (audio : String → AudioOutcome)
    (gt : List (String × String)) (order : List String) :
    (runBatch audio gt order).2 = countFold ((runBatch audio gt order).1) := by
  rw [runBatch_counters]
  simp [runBatch, countFold]

/-- C5: when loading or analysing a file raises a fault, the batch does not
abort: that file still yields a record (one record per submitted file, always),
with predicted label `error`, unclassified flag true, correct flag false, no
frequency, and the ground-truth lookup still performed and recorded; the
collection loop folds such a record into the unclassified counter. -/
theorem C5_fault_degrades_single_record (audio : String → AudioOutcome)
    (gt : List (String × String)) (fname : String)
    (h : audio fname = AudioOutcome.fail) :
    (process_file audio gt fname).predicted = Label.error ∧
    (process_file audio gt fname).unclassified = true ∧
    (process_file audio gt fname).correct = false ∧
    (process_file audio gt fname).mean_freq = none ∧
    (process_file audio gt fname).ground_truth = gtLookup gt fname ∧
    (∀ c : Counters, stepCounters c (process_file audio gt fname) =
      ⟨c.correct, c.incorrect, c.unclassified + 1, c.total + 1⟩) ∧
    (∀ order : List String, ((runBatch audio gt order).1).length = order.length) := by
  refine ⟨?_, ?_, ?_, ?_, ?_, ?_, ?_⟩ <;>
    simp [process_file, classify_gender, h, Label.isGendered, Label.str,
      stepCounters, runBatch]

/-- C5 witness: a decode fault on `clip4.mp3` degrades exactly that record,
with the ground truth still looked up from the table. -/
theorem C5_fault_degrades_single_record_witness :
    (process_file (fun _ => AudioOutcome.fail) [("clip4.mp3", "male")] "clip4.mp3").predicted
        = Label.error ∧
    (process_file (fun _ => AudioOutcome.fail) [("clip4.mp3", "male")] "clip4.mp3").unclassified
        = true ∧
    (process_file (fun _ => AudioOutcome.fail) [("clip4.mp3", "male")] "clip4.mp3").correct
        = false ∧
    (process_file (fun _ => AudioOutcome.fail) [("clip4.mp3", "male")] "clip4.mp3").mean_freq
        = none ∧
    (process_file (fun _ => AudioOutcome.fail) [("clip4.mp3", "male")] "clip4.mp3").ground_truth
        = gtLookup [("clip4.mp3", "male")] "clip4.mp3" ∧
    (∀ c : Counters, stepCounters c
        (process_file (fun _ => AudioOutcome.fail) [("clip4.mp3", "male")] "clip4.mp3") =
      ⟨c.correct, c.incorrect, c.unclassified + 1, c.total + 1⟩) ∧
    (∀ order : List String,
      ((runBatch (fun _ => AudioOutcome.fail) [("clip4.mp3", "male")] order).1).length
        = order.length) :=
  C5_fault_degrades_single_record (fun _ => AudioOutcome.fail)
    [("clip4.mp3", "male")] "clip4.mp3" rfl

/-- C6: a lookup on an identifier absent from the ground-truth table returns
the sentinel `"unknown"`, and a record whose recorded ground truth is
`"unknown"` never has its correct flag true, whatever the predicted label. -/
theorem C6_unknown_never_correct :
    (∀ (gt : List (String × String)) (fname : String),
        (∀ p ∈ gt, p.1 ≠ fname) → gtLookup gt fname = "unknown") ∧
    (∀ (audio : String → AudioOutcome) (gt : List (String × String))
        (fname : String),
        (process_file audio gt fname).ground_truth = "unknown" →
        (process_file audio gt fname).correct = false) := by
  constructor
  · intro gt fname h
    have hn : gt.reverse.find? (fun p => p.1 == fname) = none := by
      rw [List.find?_eq_none]
      intro x hx
      have hx' := h x (List.mem_reverse.mp hx)
      simp [hx']
    unfold gtLookup
    rw [hn]
  · intro audio gt fname h
    simp only [process_file] at h ⊢
    cases hp : (classify_gender (audio fname)).1 <;>
      simp_all [Label.str, Label.isGendered]

/-- C6 witness: `a.mp3` is absent from a one-row table, its lookup yields
`"unknown"`, and the resulting record is not correct even though the pitch
is in the male band. -/
theorem C6_unknown_never_correct_witness :
    gtLookup [("b.mp3", "female")] "a.mp3" = "unknown" ∧
    (process_file (fun _ => AudioOutcome.frames [some 120]) [("b.mp3", "female")]
      "a.mp3").correct = false :=
  ⟨C6_unknown_never_correct.1 [("b.mp3", "female")] "a.mp3" (by decide),
   C6_unknown_never_correct.2 (fun _ => AudioOutcome.frames [some 120])
     [("b.mp3", "female")] "a.mp3" (by decide)⟩

/-- C7: the estimator drops every unvoiced-frame sentinel; with zero voiced
frames it returns the absent estimate labelled `unclassified`, otherwise it
returns the arithmetic mean of the voiced-frame frequencies (and classifies
it). -/
theorem C7_pitch_mean (f0 : List (Option ℚ)) :
    (f0.filterMap id = [] →
      classify_gender (AudioOutcome.frames f0) = (Label.unclassified, none)) ∧
    (f0.filterMap id ≠ [] →
      classify_gender (AudioOutcome.frames f0) =
        (classifyFreq ((f0.filterMap id).sum / ((f0.filterMap id).length : ℚ)),
         some ((f0.filterMap id).sum / ((f0.filterMap id).length : ℚ)))) := by
  constructor
  · intro h
    simp [classify_gender, h]
  · intro h
    have hlen : (f0.filterMap id).length ≠ 0 := by
      simpa [List.length_eq_zero] using h
    simp [classify_gender, hlen]

/-- C7 witness: an all-unvoiced clip yields the absent estimate; a clip with
voiced frames at 100 Hz and 140 Hz yields their mean 120 Hz, male band. -/
theorem C7_pitch_mean_witness :
    classify_gender (AudioOutcome.frames [none, none]) = (Label.unclassified, none) ∧
    classify_gender (AudioOutcome.frames [some 100, none, some 140]) =
      (Label.male, some 120) := by
  constructor
  · exact (C7_pitch_mean [none, none]).1 (by decide)
  · have h := (C7_pitch_mean [some 100, none, some 140]).2 (by decide)
    rw [h]
    norm_num [classifyFreq, List.filterMap]

/-- C9: without `--all` the run processes exactly the first 10 identifiers of
the sorted candidate list (the source slices `audio_files[:10]`, not the 100
announced by the help text: on a listing of 11 candidates the default
selection keeps 10 of the 11), and with `--all` it processes the entire
sorted candidate list. -/
theorem C9_default_prefix_is_ten :
    (∀ listing : List String, selectFiles true listing =
      sortStrings (listing.filter hasMp3Suffix)) ∧
    (∀ listing : List String, selectFiles false listing =
      (sortStrings (listing.filter hasMp3Suffix)).take 10) ∧
    (∀ listing : List String, (selectFiles false listing).length ≤ 10) ∧
    (selectFiles false
      ["f00.mp3", "f01.mp3", "f02.mp3", "f03.mp3", "f04.mp3", "f05.mp3",
       "f06.mp3", "f07.mp3", "f08.mp3", "f09.mp3", "f10.mp3"]).length = 10 ∧
    (selectFiles true
      ["f00.mp3", "f01.mp3", "f02.mp3", "f03.mp3", "f04.mp3", "f05.mp3",
       "f06.mp3", "f07.mp3", "f08.mp3", "f09.mp3", "f10.mp3"]).length = 11 := by
  refine ⟨fun _ => rfl, fun _ => rfl, ?_, by decide, by decide⟩
  intro listing
  exact List.length_take_le 10 _

/-- C10: the three rate divisions happen only under the guard `total > 0` —
with `total = 0` the rates are not computed at all — and an empty candidate
set still completes the run with zero counters and a results table holding
just the header row. -/
theorem C10_zero_total_guard :
    (∀ c : Counters, c.total = 0 → rates c = none) ∧
    (∀ c : Counters, 0 < c.total → rates c =
      some ((c.correct : ℚ) / (c.total : ℚ), (c.incorrect : ℚ) / (c.total : ℚ),
        (c.unclassified : ℚ) / (c.total : ℚ))) ∧
    (∀ (audio : String → AudioOutcome) (gt : List (String × String)),
      runBatch audio gt [] = ([], ⟨0, 0, 0, 0⟩) ∧
      ((runBatch audio gt []).2).total = 0 ∧
      rates (runBatch audio gt []).2 = none ∧
      writeResults (runBatch audio gt []).1 = [headerRow]) := by
  refine ⟨?_, ?_, ?_⟩
  · intro c h
    simp [rates, h]
  · intro c h
    simp [rates, h]
  · intro audio gt
    exact ⟨rfl, rfl, rfl, rfl⟩

/-- C10 witness: zero total yields no rates; a completed run of five records
divides each count by five. -/
theorem C10_zero_total_guard_witness :
    rates ⟨0, 0, 0, 0⟩ = none ∧
    rates ⟨3, 1, 1, 5⟩ = some ((3 : ℚ) / 5, (1 : ℚ) / 5, (1 : ℚ) / 5) := by
  constructor
  · exact C10_zero_total_guard.1 ⟨0, 0, 0, 0⟩ rfl
  · have h := C10_zero_total_guard.2.1 ⟨3, 1, 1, 5⟩ (by norm_num)
    simpa using h
